import Mathlib

/-!
Shallow embedding of the authorization and audit subsystem of the
`mcp-trial-01` repository, together with proofs of its specification claims.

Embedded source files:
* `src/auth/authorizationService.ts` — `hasPermission`, `canExecuteTool`,
  `sanitizeMetadata`, `logAudit`;
* `src/auth/authMiddleware.ts` — `validateToken`, `grantDefaultPermissions`
  (database steps 2 to 5; the external Stytch calls of step 1 are modelled
  by passing their successful results as parameters);
* the authenticated server wrapper — `authenticatedTool`.

JavaScript runtime values carried as audit metadata are modelled by the
`JsValue` inductive; the Prisma store is modelled by explicit record lists;
async functions that can throw are modelled with `Except String`.
-/

/-- A JavaScript runtime value as seen by `sanitizeMetadata`: primitives,
`null`, `undefined`, function values (opaque), arrays and plain objects
with own keys in insertion order. -/
inductive JsValue where
  | vNull
  | vUndefined
  | vBool (b : Bool)
  | vNum (n : Int)
  | vStr (s : String)
  | vFunc
  | vArr (items : List JsValue)
  | vObj (fields : List (String × JsValue))

/-- The check `typeof v === "function"`. -/
def JsValue.isFunc : JsValue → Bool
  | .vFunc => true
  | _ => false

/-- The check `v !== undefined` is the negation of this. -/
def JsValue.isUndef : JsValue → Bool
  | .vUndefined => true
  | _ => false

/-- JavaScript truthiness of an optional value (`undefined` when absent),
used by the `options.metadata ? ... : undefined` ternary in `logAudit`. -/
def jsTruthy : Option JsValue → Bool
  | none => false
  | some .vNull => false
  | some .vUndefined => false
  | some (.vBool b) => b
  | some (.vNum n) => !(n == 0)
  | some (.vStr s) => !(s == "")
  | some .vFunc => true
  | some (.vArr _) => true
  | some (.vObj _) => true

mutual

/-- Embeds `sanitizeMetadata` of `src/auth/authorizationService.ts`:
`null`/`undefined` pass through, functions become `undefined`, other
primitives pass through, arrays map the sanitizer over their items and
drop items that sanitized to `undefined`, and objects are rebuilt keeping
a key only when its sanitized value is neither `undefined` nor a function. -/
def sanitizeMetadata : JsValue → JsValue
  | .vNull => .vNull
  | .vUndefined => .vUndefined
  | .vFunc => .vUndefined
  | .vBool b => .vBool b
  | .vNum n => .vNum n
  | .vStr s => .vStr s
  | .vArr items => .vArr (sanitizeItems items)
  | .vObj fields => .vObj (sanitizeFields fields)

/-- The array branch `obj.map(sanitizeMetadata).filter(item => item !== undefined)`
of `sanitizeMetadata`, fused into one pass for structural recursion. -/
def sanitizeItems : List JsValue → List JsValue
  | [] => []
  | x :: xs =>
    let v := sanitizeMetadata x
    if !v.isUndef then v :: sanitizeItems xs else sanitizeItems xs

/-- The object branch of `sanitizeMetadata`: keep `key` when the sanitized
value satisfies `value !== undefined && typeof value !== "function"`. -/
def sanitizeFields : List (String × JsValue) → List (String × JsValue)
  | [] => []
  | (k, x) :: xs =>
    let v := sanitizeMetadata x
    if !v.isUndef && !v.isFunc then (k, v) :: sanitizeFields xs
    else sanitizeFields xs

end

mutual

/-- Does a function value occur anywhere inside the value? -/
def containsFunc : JsValue → Bool
  | .vFunc => true
  | .vArr items => containsFuncItems items
  | .vObj fields => containsFuncFields fields
  | _ => false

/-- `containsFunc` over the items of an array. -/
def containsFuncItems : List JsValue → Bool
  | [] => false
  | x :: xs => containsFunc x || containsFuncItems xs

/-- `containsFunc` over the values of an object. -/
def containsFuncFields : List (String × JsValue) → Bool
  | [] => false
  | (_, x) :: xs => containsFunc x || containsFuncFields xs

end

/-- Permission category enum of the Prisma schema. -/
inductive PermissionCategory where
  | TOOL
  | RESOURCE
  | PROMPT
deriving DecidableEq

/-- A row of the `Permission` table. -/
structure Permission where
  id : Nat
  name : String
  category : PermissionCategory
  description : String
deriving DecidableEq

/-- A row of the `User` table (the local Identity record). -/
structure User where
  id : Nat
  stytchUserId : String
  email : String
  name : Option String
deriving DecidableEq

/-- The `AuthContext` of `src/auth/authMiddleware.ts`: the database user,
their loaded permissions, the local session id and the raw bearer token. -/
structure AuthContext where
  user : User
  permissions : List Permission
  sessionId : Nat
  accessToken : String

/-- Splits a list of characters on `'.'`, embedding the JavaScript
`string.split(".")` (which yields `[""]` on the empty string). -/
def splitDotsChars : List Char → List (List Char)
  | [] => [[]]
  | c :: cs =>
    if c = '.' then [] :: splitDotsChars cs
    else
      match splitDotsChars cs with
      | [] => [[c]]
      | h :: t => (c :: h) :: t

/-- The JavaScript `permissionName.split(".")`. -/
def splitDots (s : String) : List String :=
  (splitDotsChars s.data).map (fun cs => String.mk cs)

/-- The JavaScript `parts.join(".")`. -/
def joinDots : List String → String
  | [] => ""
  | [s] => s
  | s :: rest => s ++ "." ++ joinDots rest

/-- The wildcard loop of `hasPermission`:
`for (let i = parts.length; i > 0; i--)` builds
`parts.slice(0, i).join(".") + ".*"` and tests it for membership among the
granted permission names. The `Nat` argument is the loop counter `i`. -/
def wildcardLoop (perms : List Permission) (parts : List String) : Nat → Bool
  | 0 => false
  | i + 1 =>
    let wildcardName := joinDots (parts.take (i + 1)) ++ ".*"
    if perms.any (fun p => p.name == wildcardName) then true
    else wildcardLoop perms parts i

/-- Embeds `hasPermission` of `src/auth/authorizationService.ts`: exact
name match first, then the wildcard loop over dotted prefixes from the
full length down to one segment. -/
def hasPermission (authContext : AuthContext) (permissionName : String) : Bool :=
  let hasExact := authContext.permissions.any (fun p => p.name == permissionName)
  if hasExact then true
  else
    let parts := splitDots permissionName
    wildcardLoop authContext.permissions parts parts.length

/-- Embeds `canExecuteTool`: checks `tools.<toolName>`. -/
def canExecuteTool (authContext : AuthContext) (toolName : String) : Bool :=
  hasPermission authContext ("tools." ++ toolName)

/-- The options record of `logAudit`. -/
structure LogOptions where
  resourceId : Option String := none
  errorMessage : Option String := none
  metadata : Option JsValue := none
  ipAddress : Option String := none
  userAgent : Option String := none

/-- A row of the `AuditLog` table as written by `prisma.auditLog.create`. -/
structure AuditRecord where
  userId : Nat
  action : String
  success : Bool
  resourceId : Option String
  errorMessage : Option String
  metadata : Option JsValue
  ipAddress : Option String
  userAgent : Option String

/-- The data object passed to `prisma.auditLog.create` by `logAudit`,
including the `options.metadata ? sanitizeMetadata(options.metadata) :
undefined` sanitization step. -/
def mkAuditData (authContext : AuthContext) (action : String) (success : Bool)
    (options : LogOptions) : AuditRecord :=
  { userId := authContext.user.id
    action := action
    success := success
    resourceId := options.resourceId
    errorMessage := options.errorMessage
    metadata :=
      if jsTruthy options.metadata then options.metadata.map sanitizeMetadata
      else none
    ipAddress := options.ipAddress
    userAgent := options.userAgent }

/-- The audit store: the persisted rows plus a flag modelling whether the
next `prisma.auditLog.create` call throws (a storage outage), with the
message it would throw. -/
structure AuditStore where
  records : List AuditRecord
  failWrite : Bool
  failMsg : String

/-- The `prisma.auditLog.create` call: appends one row, or throws when the
store is failing. -/
def auditCreate (st : AuditStore) (row : AuditRecord) : Except String AuditStore :=
  if st.failWrite then Except.error st.failMsg
  else Except.ok { st with records := st.records ++ [row] }

/-- Embeds `logAudit` of `src/auth/authorizationService.ts`: builds the
row, attempts the store write, and catches any write failure, reporting it
to the operational log (`console.error`) instead of propagating. The
returned list is the operational log output of this call; the function is
total — there is no exceptional return path. -/
def logAudit (authContext : AuthContext) (action : String) (success : Bool)
    (options : LogOptions) (st : AuditStore) : AuditStore × List String :=
  let row := mkAuditData authContext action success options
  match auditCreate st row with
  | Except.ok st2 => (st2, [])
  | Except.error e => (st, ["Failed to create audit log: " ++ e])

/-- Outcome of one guarded tool invocation: the denial content responses,
a successful result, or a rethrown handler error. -/
inductive GuardOutcome (R : Type) where
  | authRequired
  | permissionDenied (toolName : String)
  | success (r : R)
  | thrown (e : String)

/-- The full observable result of one guarded tool invocation: outcome,
audit store, operational log lines, and the underlying data the handler
may transform. -/
structure GuardResult (D R : Type) where
  outcome : GuardOutcome R
  store : AuditStore
  opLog : List String
  data : D

/-- Embeds `authenticatedTool` of the authenticated server: with no
auth context, `logFailedAction` writes only a console line and a denial
content response is returned; with a context lacking the permission, a
`success=false` audit row with message "Permission denied" is written and
a denial returned; otherwise the handler runs, its outcome is audited
(metadata = the invocation params) and its result returned or its error
rethrown. The handler is modelled as a function from the params and the
underlying data to `Except String` of a result and new data. -/
def authenticatedTool {D R : Type} (currentAuthContext : Option AuthContext)
    (toolName : String) (handler : JsValue → D → Except String (R × D))
    (params : JsValue) (st : AuditStore) (data : D) : GuardResult D R :=
  match currentAuthContext with
  | none =>
    { outcome := GuardOutcome.authRequired
      store := st
      opLog := ["tool." ++ toolName ++ " failed: No authentication context"]
      data := data }
  | some ctx =>
    if canExecuteTool ctx toolName then
      match handler params data with
      | Except.ok (r, d2) =>
        let (st2, log) := logAudit ctx ("tool." ++ toolName) true
          { metadata := some params } st
        { outcome := GuardOutcome.success r, store := st2, opLog := log, data := d2 }
      | Except.error e =>
        let (st2, log) := logAudit ctx ("tool." ++ toolName) false
          { errorMessage := some e, metadata := some params } st
        { outcome := GuardOutcome.thrown e, store := st2, opLog := log, data := data }
    else
      let (st2, log) := logAudit ctx ("tool." ++ toolName) false
        { errorMessage := some "Permission denied" } st
      { outcome := GuardOutcome.permissionDenied toolName, store := st2
        opLog := log, data := data }

/-- A row of the `Session` table. -/
structure Session where
  id : Nat
  userId : Nat
  stytchSessionId : String
  accessToken : String
  expiresAt : Nat
  lastUsedAt : Nat
deriving DecidableEq

/-- A row of the `UserPermission` table (a Permission Grant). -/
structure UserPermission where
  userId : Nat
  permissionId : Nat
  grantedBy : String
deriving DecidableEq

/-- The Prisma database state used by `validateToken`, with a counter
supplying fresh row ids. -/
structure Db where
  users : List User
  sessions : List Session
  permissions : List Permission
  userPermissions : List UserPermission
  nextId : Nat

/-- The successful result of the external Stytch calls of `validateToken`
step 1 (`sessions.authenticate` and, when needed, `users.get`): canonical
user id, canonical session id, optional expiry, and the user profile. -/
structure StytchResult where
  stytchUserId : String
  stytchSessionId : String
  expiresAt : Option Nat
  profileEmails : List String
  profileFirstName : Option String

/-- One entry of the `defaultPermissions` list of `grantDefaultPermissions`. -/
structure PermDef where
  name : String
  category : PermissionCategory
  description : String

/-- The fixed `defaultPermissions` list of `grantDefaultPermissions`. -/
def defaultPermissions : List PermDef :=
  [ { name := "tools.create-random-user", category := PermissionCategory.TOOL
      description := "Can create random users" }
  , { name := "tools.create-user", category := PermissionCategory.TOOL
      description := "Can create specific users" }
  , { name := "resources.users", category := PermissionCategory.RESOURCE
      description := "Can view user list" }
  , { name := "resources.user-details", category := PermissionCategory.RESOURCE
      description := "Can view user details" }
  , { name := "prompts.generate-fake-user", category := PermissionCategory.PROMPT
      description := "Can use fake user generator" } ]

/-- One iteration body of `grantDefaultPermissions`:
`prisma.permission.findUnique({where: {name}})`, creating the permission
when absent. -/
def findOrCreatePermission (db : Db) (d : PermDef) : Db × Permission :=
  match db.permissions.find? (fun p => p.name == d.name) with
  | some p => (db, p)
  | none =>
    let p : Permission :=
      { id := db.nextId, name := d.name, category := d.category
        description := d.description }
    ({ db with permissions := db.permissions ++ [p], nextId := db.nextId + 1 }, p)

/-- The `for (const permDef of defaultPermissions)` loop of
`grantDefaultPermissions`: find-or-create each permission, then insert a
`UserPermission` row granted by `"system"`. -/
def grantLoop (userId : Nat) : Db → List PermDef → Db
  | db, [] => db
  | db, d :: rest =>
    let (db1, p) := findOrCreatePermission db d
    let db2 := { db1 with userPermissions :=
      db1.userPermissions ++ [{ userId := userId, permissionId := p.id, grantedBy := "system" }] }
    grantLoop userId db2 rest

/-- Embeds `grantDefaultPermissions` of `src/auth/authMiddleware.ts`. -/
def grantDefaultPermissions (db : Db) (userId : Nat) : Db :=
  grantLoop userId db defaultPermissions

/-- Step 2 of `validateToken`: load the user by Stytch user id, or create
them from the Stytch profile (`emails?.[0]?.email || ""`,
`name?.first_name || null`) and grant the default permissions. -/
def loadOrCreateUser (db : Db) (auth : StytchResult) : Db × User :=
  match db.users.find? (fun u => u.stytchUserId == auth.stytchUserId) with
  | some u => (db, u)
  | none =>
    let u : User :=
      { id := db.nextId
        stytchUserId := auth.stytchUserId
        email := auth.profileEmails.headD ""
        name := match auth.profileFirstName with
                | some s => if s == "" then none else some s
                | none => none }
    let db1 : Db := { db with users := db.users ++ [u], nextId := db.nextId + 1 }
    (grantDefaultPermissions db1 u.id, u)

/-- Step 3 of `validateToken`: find the session by Stytch session id and
update its `lastUsedAt` in place, or create a new session row with expiry
from the provider (default one hour). Creation initializes `lastUsedAt`.
Modelled from the spec: the Prisma schema file is not under `src/`, so the
creation-time default of the `lastUsedAt` column is modelled from the
Session attributes of the spec ("last-used timestamp", set when the row is
"created on first verification") as the current time. -/
def touchOrCreateSession (db : Db) (auth : StytchResult) (userId : Nat)
    (accessToken : String) (now : Nat) : Db × Session :=
  let expiresAt := auth.expiresAt.getD (now + 3600000)
  match db.sessions.find? (fun s => s.stytchSessionId == auth.stytchSessionId) with
  | some s =>
    ({ db with sessions := db.sessions.map (fun t =>
        if t.id == s.id then { t with lastUsedAt := now } else t) }, s)
  | none =>
    let s : Session :=
      { id := db.nextId, userId := userId
        stytchSessionId := auth.stytchSessionId
        accessToken := accessToken, expiresAt := expiresAt, lastUsedAt := now }
    ({ db with sessions := db.sessions ++ [s], nextId := db.nextId + 1 }, s)

/-- Step 4 of `validateToken`: load the permission grants of the user with
their joined `Permission` rows. -/
def loadPermissions (db : Db) (userId : Nat) : List Permission :=
  (db.userPermissions.filter (fun up => up.userId == userId)).filterMap
    (fun up => db.permissions.find? (fun p => p.id == up.permissionId))

/-- Embeds the database steps 2 to 5 of `validateToken` of
`src/auth/authMiddleware.ts`, given the successful Stytch verification
result of step 1. Returns the updated database and the `AuthContext`. -/
def validateTokenDb (db : Db) (auth : StytchResult) (accessToken : String)
    (now : Nat) : Db × AuthContext :=
  let (db1, user) := loadOrCreateUser db auth
  let (db2, session) := touchOrCreateSession db1 auth user.id accessToken now
  (db2, { user := user, permissions := loadPermissions db2 user.id
          sessionId := session.id, accessToken := accessToken })

/-- Number of `Session` rows holding a given Stytch session id. -/
def sessionCount (db : Db) (sid : String) : Nat :=
  (db.sessions.filter (fun s => s.stytchSessionId == sid)).length

/-- The `prisma.session.findUnique({where: {stytchSessionId}})` lookup. -/
def findSessionBySid (db : Db) (sid : String) : Option Session :=
  db.sessions.find? (fun s => s.stytchSessionId == sid)

/-- Joins a list of character lists with `'.'`, the character-level image
of `joinDots`. -/
def charJoin : List (List Char) → List Char
  | [] => []
  | [h] => h
  | h :: t => h ++ '.' :: charJoin t

/-- Example granted set: only the wildcard `tools.*`. -/
def ctxWildcardTools : AuthContext :=
  { user := { id := 0, stytchUserId := "u1", email := "u1", name := none }
    permissions := [{ id := 1, name := "tools.*"
                      category := PermissionCategory.TOOL, description := "" }]
    sessionId := 0, accessToken := "tok" }

/-- Example granted set: only the exact name `tools.create-user`. -/
def ctxExactCreateUser : AuthContext :=
  { user := { id := 0, stytchUserId := "u1", email := "u1", name := none }
    permissions := [{ id := 2, name := "tools.create-user"
                      category := PermissionCategory.TOOL, description := "" }]
    sessionId := 0, accessToken := "tok" }

/-- Example granted set: only the full-name wildcard `tools.create-user.*`. -/
def ctxFullWildcard : AuthContext :=
  { user := { id := 0, stytchUserId := "u1", email := "u1", name := none }
    permissions := [{ id := 3, name := "tools.create-user.*"
                      category := PermissionCategory.TOOL, description := "" }]
    sessionId := 0, accessToken := "tok" }

/-- Example granted set extending `ctxExactCreateUser` with one more grant. -/
def ctxExactPlusUsers : AuthContext :=
  { user := { id := 0, stytchUserId := "u1", email := "u1", name := none }
    permissions := [{ id := 2, name := "tools.create-user"
                      category := PermissionCategory.TOOL, description := "" },
                    { id := 4, name := "resources.users"
                      category := PermissionCategory.RESOURCE, description := "" }]
    sessionId := 0, accessToken := "tok" }

/-- Example context with the empty granted set. -/
def ctxNoGrants : AuthContext :=
  { user := { id := 0, stytchUserId := "u1", email := "u1", name := none }
    permissions := [], sessionId := 0, accessToken := "tok" }

theorem splitDotsChars_ne_nil (cs : List Char) : splitDotsChars cs ≠ [] := by
  induction cs with
  | nil => simp [splitDotsChars]
  | cons c cs ih =>
    simp only [splitDotsChars]
    split
    · simp
    · split
      · simp
      · simp

theorem charJoin_splitDotsChars (cs : List Char) :
    charJoin (splitDotsChars cs) = cs := by
  induction cs with
  | nil => simp [splitDotsChars, charJoin]
  | cons c cs ih =>
    simp only [splitDotsChars]
    split
    · rename_i hc
      subst hc
      rcases h : splitDotsChars cs with _ | ⟨h1, t1⟩
      · exact absurd h (splitDotsChars_ne_nil cs)
      · rw [h] at ih
        simp [charJoin, ih]
    · rcases h : splitDotsChars cs with _ | ⟨h1, t1⟩
      · exact absurd h (splitDotsChars_ne_nil cs)
      · rw [h] at ih
        rcases t1 with _ | ⟨h2, t2⟩
        · simp [charJoin] at ih
          simp [charJoin, ih]
        · simp [charJoin] at ih ⊢
          simp [ih]

theorem joinDots_map_mk (ls : List (List Char)) :
    (joinDots (ls.map String.mk)).data = charJoin ls := by
  induction ls with
  | nil => simp [joinDots, charJoin]
  | cons h t ih =>
    rcases t with _ | ⟨h2, t2⟩
    · simp [joinDots, charJoin]
    · show (String.mk h ++ "." ++ joinDots (List.map String.mk (h2 :: t2))).data = _
      rw [charJoin]
      · simp only [String.data_append, ← ih]
        simp
      · simp

theorem joinDots_splitDots (s : String) : joinDots (splitDots s) = s := by
  apply String.ext
  show (joinDots ((splitDotsChars s.data).map String.mk)).data = s.data
  rw [joinDots_map_mk, charJoin_splitDotsChars]

theorem splitDots_ne_nil (s : String) : splitDots s ≠ [] := by
  simp only [splitDots, ne_eq, List.map_eq_nil_iff]
  exact splitDotsChars_ne_nil s.data

theorem wildcardLoop_iff (perms : List Permission) (parts : List String) :
    ∀ n, wildcardLoop perms parts n = true ↔
      ∃ i, 1 ≤ i ∧ i ≤ n ∧ ∃ p ∈ perms, p.name = joinDots (parts.take i) ++ ".*" := by
  intro n
  induction n with
  | zero =>
    simp only [wildcardLoop]
    constructor
    · intro h
      simp at h
    · rintro ⟨i, h1, h2, -⟩
      omega
  | succ m ih =>
    simp only [wildcardLoop]
    split
    · rename_i h
      simp only [true_iff]
      rw [List.any_eq_true] at h
      obtain ⟨p, hp, hname⟩ := h
      exact ⟨m + 1, by omega, le_refl _, p, hp, by
        simpa using hname⟩
    · rename_i h
      rw [ih]
      constructor
      · rintro ⟨i, h1, h2, p, hp, hname⟩
        exact ⟨i, h1, by omega, p, hp, hname⟩
      · rintro ⟨i, h1, h2, p, hp, hname⟩
        rcases Nat.lt_or_ge i (m + 1) with hi | hi
        · exact ⟨i, h1, by omega, p, hp, hname⟩
        · exfalso
          have : i = m + 1 := by omega
          subst this
          apply h
          rw [List.any_eq_true]
          exact ⟨p, hp, by simpa using hname⟩

theorem hasPermission_iff (ctx : AuthContext) (r : String) :
    hasPermission ctx r = true ↔
      (∃ p ∈ ctx.permissions, p.name = r) ∨
      ∃ i, 1 ≤ i ∧ i ≤ (splitDots r).length ∧
        ∃ p ∈ ctx.permissions, p.name = joinDots ((splitDots r).take i) ++ ".*" := by
  simp only [hasPermission]
  split
  · rename_i h
    rw [List.any_eq_true] at h
    obtain ⟨p, hp, hname⟩ := h
    simp only [true_iff]
    exact Or.inl ⟨p, hp, by simpa using hname⟩
  · rename_i h
    rw [wildcardLoop_iff]
    constructor
    · exact Or.inr
    · rintro (⟨p, hp, hname⟩ | hw)
      · exfalso
        apply h
        rw [List.any_eq_true]
        exact ⟨p, hp, by simpa using hname⟩
      · exact hw

/-- C1: `hasPermission` returns true exactly when the requested name is a
member of the granted set or some dotted prefix of it (from the full
length down to one segment) extended with `.*` is a member; in particular
`tools.*` grants `tools.create-user` and `tools.anything` but not
`resources.users`, and an exact grant of `tools.create-user` grants that
name and not its sibling `tools.create-random-user`. -/
theorem C1_hasPermission_exact_or_wildcard :
    (∀ ctx r, hasPermission ctx r = true ↔
      (∃ p ∈ ctx.permissions, p.name = r) ∨
      ∃ i, 1 ≤ i ∧ i ≤ (splitDots r).length ∧
        ∃ p ∈ ctx.permissions, p.name = joinDots ((splitDots r).take i) ++ ".*") ∧
    hasPermission ctxWildcardTools "tools.create-user" = true ∧
    hasPermission ctxWildcardTools "tools.anything" = true ∧
    hasPermission ctxWildcardTools "resources.users" = false ∧
    hasPermission ctxExactCreateUser "tools.create-user" = true ∧
    hasPermission ctxExactCreateUser "tools.create-random-user" = false :=
  ⟨hasPermission_iff, by decide, by decide, by decide, by decide, by decide⟩

/-- C2 counterexample: contrary to the claim, the wildcard obtained by
appending `.*` to the full requested name is tested first, so the granted
set containing only `tools.create-user.*` does authorize the request
`tools.create-user`. -/
theorem C2_full_wildcard_counterexample :
    hasPermission ctxFullWildcard "tools.create-user" = true := by decide

/-- C2 amended: the wildcard loop of `hasPermission` starts at the full
prefix length, so the wildcard formed by appending `.*` to the whole
requested name is tested (first among the wildcards): any granted name
equal to the requested name plus `.*` authorizes the request; in
particular `tools.create-user.*` authorizes `tools.create-user`. -/
theorem C2_amended_full_wildcard_is_tested :
    (∀ ctx r, (∃ p ∈ ctx.permissions, p.name = r ++ ".*") →
      hasPermission ctx r = true) ∧
    hasPermission ctxFullWildcard "tools.create-user" = true := by
  constructor
  · intro ctx r hp
    rw [hasPermission_iff]
    refine Or.inr ⟨(splitDots r).length, ?_, le_refl _, ?_⟩
    · have := splitDots_ne_nil r
      rcases h : splitDots r with _ | ⟨a, b⟩
      · exact absurd h this
      · simp
    · rw [List.take_length, joinDots_splitDots]
      exact hp
  · decide

/-- C2 amended witness: the general statement applied to the concrete
granted set containing only `tools.create-user.*`. -/
theorem C2_amended_full_wildcard_is_tested_witness :
    (∃ p ∈ ctxFullWildcard.permissions, p.name = "tools.create-user" ++ ".*") ∧
    hasPermission ctxFullWildcard "tools.create-user" = true :=
  ⟨⟨{ id := 3, name := "tools.create-user.*"
      category := PermissionCategory.TOOL, description := "" }, by decide, by decide⟩,
   C2_amended_full_wildcard_is_tested.1 ctxFullWildcard "tools.create-user"
     ⟨{ id := 3, name := "tools.create-user.*"
        category := PermissionCategory.TOOL, description := "" }, by decide, by decide⟩⟩

/-- C10: `hasPermission` is monotone in the granted set — enlarging the
permission list never turns a true answer false — and the empty granted
set yields false for every requested name. -/
theorem C10_hasPermission_monotone :
    (∀ ctx ctx' r, (∀ p ∈ ctx.permissions, p ∈ ctx'.permissions) →
      hasPermission ctx r = true → hasPermission ctx' r = true) ∧
    (∀ ctx r, ctx.permissions = [] → hasPermission ctx r = false) := by
  constructor
  · intro ctx ctx' r hsub h
    rw [hasPermission_iff] at h ⊢
    rcases h with ⟨p, hp, hname⟩ | ⟨i, h1, h2, p, hp, hname⟩
    · exact Or.inl ⟨p, hsub p hp, hname⟩
    · exact Or.inr ⟨i, h1, h2, p, hsub p hp, hname⟩
  · intro ctx r h
    rcases hb : hasPermission ctx r with _ | _
    · rfl
    · exfalso
      rw [hasPermission_iff] at hb
      rw [h] at hb
      rcases hb with ⟨p, hp, -⟩ | ⟨i, -, -, p, hp, -⟩ <;> simp at hp

/-- C10 witness: monotonicity applied to the concrete inclusion of the
`tools.create-user` singleton grant set in its extension with
`resources.users`, and the empty granted set applied at a concrete name. -/
theorem C10_hasPermission_monotone_witness :
    hasPermission ctxExactPlusUsers "tools.create-user" = true ∧
    hasPermission ctxNoGrants "tools.create-user" = false :=
  ⟨C10_hasPermission_monotone.1 ctxExactCreateUser ctxExactPlusUsers
      "tools.create-user" (by decide) (by decide),
   C10_hasPermission_monotone.2 ctxNoGrants "tools.create-user" rfl⟩

mutual

theorem sanitizeMetadata_no_func : ∀ v : JsValue, containsFunc (sanitizeMetadata v) = false
  | .vNull => by simp [sanitizeMetadata, containsFunc]
  | .vUndefined => by simp [sanitizeMetadata, containsFunc]
  | .vFunc => by simp [sanitizeMetadata, containsFunc]
  | .vBool b => by simp [sanitizeMetadata, containsFunc]
  | .vNum n => by simp [sanitizeMetadata, containsFunc]
  | .vStr s => by simp [sanitizeMetadata, containsFunc]
  | .vArr items => by
    simp only [sanitizeMetadata, containsFunc]
    exact sanitizeItems_no_func items
  | .vObj fields => by
    simp only [sanitizeMetadata, containsFunc]
    exact sanitizeFields_no_func fields

theorem sanitizeItems_no_func : ∀ l : List JsValue,
    containsFuncItems (sanitizeItems l) = false
  | [] => by simp [sanitizeItems, containsFuncItems]
  | x :: xs => by
    simp only [sanitizeItems]
    split
    · simp only [containsFuncItems, Bool.or_eq_false_iff]
      exact ⟨sanitizeMetadata_no_func x, sanitizeItems_no_func xs⟩
    · exact sanitizeItems_no_func xs

theorem sanitizeFields_no_func : ∀ l : List (String × JsValue),
    containsFuncFields (sanitizeFields l) = false
  | [] => by simp [sanitizeFields, containsFuncFields]
  | (k, x) :: xs => by
    simp only [sanitizeFields]
    split
    · simp only [containsFuncFields, Bool.or_eq_false_iff]
      exact ⟨sanitizeMetadata_no_func x, sanitizeFields_no_func xs⟩
    · exact sanitizeFields_no_func xs

end

theorem sanitizeItems_eq (l : List JsValue) :
    sanitizeItems l = (l.map sanitizeMetadata).filter (fun v => !v.isUndef) := by
  induction l with
  | nil => simp [sanitizeItems]
  | cons x xs ih =>
    simp only [sanitizeItems, List.map_cons, List.filter_cons, ih]

theorem sanitizeFields_eq (l : List (String × JsValue)) :
    sanitizeFields l = l.filterMap (fun kv =>
      let v := sanitizeMetadata kv.2
      if !v.isUndef && !v.isFunc then some (kv.1, v) else none) := by
  induction l with
  | nil => simp [sanitizeFields]
  | cons kv xs ih =>
    rcases kv with ⟨k, x⟩
    simp only [sanitizeFields, List.filterMap_cons]
    by_cases h : (!(sanitizeMetadata x).isUndef && !(sanitizeMetadata x).isFunc) = true
    · simp [h, ih]
    · simp only [Bool.not_eq_true] at h
      simp [h, ih]

/-- C6: `sanitizeMetadata` removes every function value at any depth (the
result never contains one), passes primitives, `null` and `undefined`
through unchanged, maps over arrays dropping entries whose sanitized value
is `undefined`, and rebuilds objects dropping keys whose sanitized value
is `undefined` (or a function), preserving sibling primitive values — as
in the concrete instance where a function-valued key is dropped and its
string sibling kept. -/
theorem C6_sanitizeMetadata_spec :
    (∀ v, containsFunc (sanitizeMetadata v) = false) ∧
    sanitizeMetadata JsValue.vNull = JsValue.vNull ∧
    sanitizeMetadata JsValue.vUndefined = JsValue.vUndefined ∧
    (∀ b, sanitizeMetadata (JsValue.vBool b) = JsValue.vBool b) ∧
    (∀ n, sanitizeMetadata (JsValue.vNum n) = JsValue.vNum n) ∧
    (∀ s, sanitizeMetadata (JsValue.vStr s) = JsValue.vStr s) ∧
    (∀ items, sanitizeMetadata (JsValue.vArr items) =
      JsValue.vArr ((items.map sanitizeMetadata).filter (fun v => !v.isUndef))) ∧
    (∀ fields, sanitizeMetadata (JsValue.vObj fields) =
      JsValue.vObj (fields.filterMap (fun kv =>
        let v := sanitizeMetadata kv.2
        if !v.isUndef && !v.isFunc then some (kv.1, v) else none))) ∧
    sanitizeMetadata (JsValue.vObj [("callback", JsValue.vFunc),
      ("x", JsValue.vStr "a"),
      ("nested", JsValue.vObj [("f", JsValue.vFunc), ("y", JsValue.vNum 1)])]) =
      JsValue.vObj [("x", JsValue.vStr "a"),
        ("nested", JsValue.vObj [("y", JsValue.vNum 1)])] := by
  refine ⟨sanitizeMetadata_no_func, by simp [sanitizeMetadata],
    by simp [sanitizeMetadata], fun b => by simp [sanitizeMetadata],
    fun n => by simp [sanitizeMetadata], fun s => by simp [sanitizeMetadata],
    fun items => ?_, fun fields => ?_, ?_⟩
  · simp only [sanitizeMetadata, sanitizeItems_eq]
  · simp only [sanitizeMetadata, sanitizeFields_eq]
  · simp [sanitizeMetadata, sanitizeFields, JsValue.isUndef, JsValue.isFunc]

/-- C7: `logAudit` never raises — it is a total function; when the
underlying audit-store write fails it catches the failure, leaves the
stored records unchanged and reports the failure to the operational log,
and when the write succeeds it appends exactly the constructed record. In
either case it returns normally, so an audit-write failure never replaces
the outcome of the audited operation. -/
theorem C7_logAudit_never_raises :
    ∀ (ctx : AuthContext) (action : String) (success : Bool)
      (options : LogOptions) (st : AuditStore),
    (st.failWrite = true →
      logAudit ctx action success options st =
        (st, ["Failed to create audit log: " ++ st.failMsg])) ∧
    (st.failWrite = false →
      logAudit ctx action success options st =
        ({ st with records :=
            st.records ++ [mkAuditData ctx action success options] }, [])) := by
  intro ctx action success options st
  constructor
  · intro h
    simp [logAudit, auditCreate, h]
  · intro h
    simp [logAudit, auditCreate, h]

/-- C7 witness: both branches applied at a concrete failing store and a
concrete healthy store. -/
theorem C7_logAudit_never_raises_witness :
    logAudit ctxNoGrants "tool.create-user" false {} ⟨[], true, "db down"⟩ =
      (⟨[], true, "db down"⟩, ["Failed to create audit log: " ++ "db down"]) ∧
    logAudit ctxNoGrants "tool.create-user" true {} ⟨[], false, ""⟩ =
      (⟨[mkAuditData ctxNoGrants "tool.create-user" true {}], false, ""⟩, []) :=
  ⟨(C7_logAudit_never_raises ctxNoGrants "tool.create-user" false {}
      ⟨[], true, "db down"⟩).1 rfl,
   (C7_logAudit_never_raises ctxNoGrants "tool.create-user" true {}
      ⟨[], false, ""⟩).2 rfl⟩

/-- C3: with no auth context the guard returns the authentication-required
denial, leaves the audit store and the underlying data untouched, and its
result does not depend on the wrapped handler (it is never executed); with
any auth context present the guard writes exactly one audit record, so the
unauthenticated path is the only terminal path producing none. -/
theorem C3_unauthenticated_path_no_audit :
    ∀ (D R : Type) (toolName : String)
      (handler : JsValue → D → Except String (R × D)) (params : JsValue)
      (st : AuditStore) (data : D),
    st.failWrite = false →
    (authenticatedTool none toolName handler params st data =
      { outcome := GuardOutcome.authRequired
        store := st
        opLog := ["tool." ++ toolName ++ " failed: No authentication context"]
        data := data }) ∧
    (∀ ctx : AuthContext,
      ((authenticatedTool (some ctx) toolName handler params st data).store.records).length =
        st.records.length + 1) := by
  intro D R toolName handler params st data hf
  constructor
  · rfl
  · intro ctx
    simp only [authenticatedTool]
    by_cases hc : canExecuteTool ctx toolName
    · simp only [hc, if_true]
      rcases hh : handler params data with e | ⟨r, d2⟩ <;>
        simp [logAudit, auditCreate, hf]
    · simp only [hc]
      simp [logAudit, auditCreate, hf]

/-- C3 witness: the two parts applied at a concrete handler, store and
context. -/
theorem C3_unauthenticated_path_no_audit_witness :
    (authenticatedTool none "create-user"
        (fun (_ : JsValue) (d : Nat) => Except.ok ((0 : Nat), d))
        (JsValue.vObj []) ⟨[], false, ""⟩ 0 =
      { outcome := GuardOutcome.authRequired
        store := ⟨[], false, ""⟩
        opLog := ["tool." ++ "create-user" ++ " failed: No authentication context"]
        data := 0 }) ∧
    ((authenticatedTool (some ctxNoGrants) "create-user"
        (fun (_ : JsValue) (d : Nat) => Except.ok ((0 : Nat), d))
        (JsValue.vObj []) ⟨[], false, ""⟩ 0).store.records).length = 0 + 1 :=
  ⟨(C3_unauthenticated_path_no_audit Nat Nat "create-user" _ _ _ _ rfl).1,
   (C3_unauthenticated_path_no_audit Nat Nat "create-user" _ _ _ _ rfl).2 ctxNoGrants⟩

/-- C4: with an auth context lacking the required permission the guard
writes exactly one new audit record — `success = false`, error message
"Permission denied", no metadata — returns the permission-denied response,
does not run the handler (the result is independent of it), and leaves the
underlying data unchanged. -/
theorem C4_denied_audit_and_frame :
    ∀ (D R : Type) (ctx : AuthContext) (toolName : String)
      (handler : JsValue → D → Except String (R × D)) (params : JsValue)
      (st : AuditStore) (data : D),
    st.failWrite = false →
    canExecuteTool ctx toolName = false →
    authenticatedTool (some ctx) toolName handler params st data =
      { outcome := GuardOutcome.permissionDenied toolName
        store := { st with records := st.records ++
          [mkAuditData ctx ("tool." ++ toolName) false
            { errorMessage := some "Permission denied" }] }
        opLog := []
        data := data } ∧
    (mkAuditData ctx ("tool." ++ toolName) false
      { errorMessage := some "Permission denied" }).success = false ∧
    (mkAuditData ctx ("tool." ++ toolName) false
      { errorMessage := some "Permission denied" }).errorMessage =
        some "Permission denied" ∧
    (mkAuditData ctx ("tool." ++ toolName) false
      { errorMessage := some "Permission denied" }).metadata = none := by
  intro D R ctx toolName handler params st data hf hc
  refine ⟨?_, rfl, rfl, rfl⟩
  simp only [authenticatedTool, hc]
  simp [logAudit, auditCreate, hf]

/-- C4 witness: the theorem applied at the concrete context granted only
`tools.create-user` requesting the tool `create-random-user`. -/
theorem C4_denied_audit_and_frame_witness :
    authenticatedTool (some ctxExactCreateUser) "create-random-user"
        (fun (_ : JsValue) (d : Nat) => Except.ok ((0 : Nat), d))
        (JsValue.vObj []) ⟨[], false, ""⟩ 0 =
      { outcome := GuardOutcome.permissionDenied "create-random-user"
        store := ⟨[mkAuditData ctxExactCreateUser
            ("tool." ++ "create-random-user") false
            { errorMessage := some "Permission denied" }], false, ""⟩
        opLog := []
        data := 0 } :=
  (C4_denied_audit_and_frame Nat Nat ctxExactCreateUser "create-random-user"
    _ _ _ _ rfl (by decide)).1

/-- C5 counterexample: the claim says the audit record written for an
authorized invocation carries the invocation input itself as metadata, but
`logAudit` stores `sanitizeMetadata` of the input — for a params object
holding a function value the stored metadata differs from the input. -/
theorem C5_metadata_counterexample :
    ((authenticatedTool (some ctxExactCreateUser) "create-user"
        (fun (_ : JsValue) (d : Nat) => Except.ok ((7 : Nat), d))
        (JsValue.vObj [("callback", JsValue.vFunc), ("x", JsValue.vStr "a")])
        ⟨[], false, ""⟩ 0).store.records.map (fun row => row.metadata)) =
      [some (JsValue.vObj [("x", JsValue.vStr "a")])] ∧
    some (JsValue.vObj [("x", JsValue.vStr "a")]) ≠
      some (JsValue.vObj [("callback", JsValue.vFunc), ("x", JsValue.vStr "a")]) := by
  constructor
  · simp only [authenticatedTool,
      show canExecuteTool ctxExactCreateUser "create-user" = true from by decide,
      if_true]
    simp [logAudit, auditCreate, mkAuditData, jsTruthy,
      sanitizeMetadata, sanitizeFields, JsValue.isUndef, JsValue.isFunc]
  · simp

/-- C5 amended: for an authenticated, authorized invocation the guard
writes one audit record — `success = false` with the handler error
message when the handler throws, then rethrows the same error unchanged;
`success = true` when it succeeds, returning its result and new data — and
the metadata of the record is the sanitized invocation input
(`sanitizeMetadata` applied by the audit recorder; `undefined` for a falsy
input), which coincides with the input whenever the input contains no
function or undefined values. -/
theorem C5_amended_handler_outcome_audited :
    ∀ (D R : Type) (ctx : AuthContext) (toolName : String)
      (handler : JsValue → D → Except String (R × D)) (params : JsValue)
      (st : AuditStore) (data : D),
    st.failWrite = false →
    canExecuteTool ctx toolName = true →
    (∀ e, handler params data = Except.error e →
      authenticatedTool (some ctx) toolName handler params st data =
        { outcome := GuardOutcome.thrown e
          store := { st with records := st.records ++
            [mkAuditData ctx ("tool." ++ toolName) false
              { errorMessage := some e, metadata := some params }] }
          opLog := [], data := data }) ∧
    (∀ r d2, handler params data = Except.ok (r, d2) →
      authenticatedTool (some ctx) toolName handler params st data =
        { outcome := GuardOutcome.success r
          store := { st with records := st.records ++
            [mkAuditData ctx ("tool." ++ toolName) true
              { metadata := some params }] }
          opLog := [], data := d2 }) ∧
    (∀ e, (mkAuditData ctx ("tool." ++ toolName) false
        { errorMessage := e, metadata := some params }).metadata =
      (if jsTruthy (some params) then some (sanitizeMetadata params) else none)) ∧
    ((mkAuditData ctx ("tool." ++ toolName) true
        { metadata := some params }).metadata =
      (if jsTruthy (some params) then some (sanitizeMetadata params) else none)) := by
  intro D R ctx toolName handler params st data hf hc
  refine ⟨?_, ?_, fun e => rfl, rfl⟩
  · intro e he
    simp only [authenticatedTool, hc, if_true, he]
    simp [logAudit, auditCreate, hf]
  · intro r d2 hok
    simp only [authenticatedTool, hc, if_true, hok]
    simp [logAudit, auditCreate, hf]

/-- C5 amended witness: the success branch applied at a concrete granted
context and handler, and the throw branch at a concrete failing handler. -/
theorem C5_amended_handler_outcome_audited_witness :
    (authenticatedTool (some ctxExactCreateUser) "create-user"
        (fun (_ : JsValue) (d : Nat) => Except.ok ((7 : Nat), d + 1))
        (JsValue.vObj []) ⟨[], false, ""⟩ 0 =
      { outcome := GuardOutcome.success 7
        store := ⟨[mkAuditData ctxExactCreateUser
            ("tool." ++ "create-user") true { metadata := some (JsValue.vObj []) }],
            false, ""⟩
        opLog := [], data := 0 + 1 }) ∧
    (authenticatedTool (some ctxExactCreateUser) "create-user"
        (fun (_ : JsValue) (_ : Nat) => (Except.error "Duplicate email" : Except String (Nat × Nat)))
        (JsValue.vObj []) ⟨[], false, ""⟩ 0 =
      { outcome := GuardOutcome.thrown "Duplicate email"
        store := ⟨[mkAuditData ctxExactCreateUser
            ("tool." ++ "create-user") false
            { errorMessage := some "Duplicate email"
              metadata := some (JsValue.vObj []) }], false, ""⟩
        opLog := [], data := 0 }) :=
  ⟨(C5_amended_handler_outcome_audited Nat Nat ctxExactCreateUser "create-user"
      _ _ _ _ rfl (by decide)).2.1 7 (0 + 1) rfl,
   (C5_amended_handler_outcome_audited Nat Nat ctxExactCreateUser "create-user"
      _ _ _ _ rfl (by decide)).1 "Duplicate email" rfl⟩

theorem findOrCreatePermission_spec (db : Db) (d : PermDef) :
    (findOrCreatePermission db d).1.users = db.users ∧
    (findOrCreatePermission db d).1.sessions = db.sessions ∧
    (findOrCreatePermission db d).1.userPermissions = db.userPermissions ∧
    (∃ extra, (findOrCreatePermission db d).1.permissions = db.permissions ++ extra) ∧
    (findOrCreatePermission db d).2 ∈ (findOrCreatePermission db d).1.permissions ∧
    (findOrCreatePermission db d).2.name = d.name := by
  rcases h : db.permissions.find? (fun p => p.name == d.name) with _ | q
  · have h1 : findOrCreatePermission db d =
        (⟨db.users, db.sessions,
          db.permissions ++ [⟨db.nextId, d.name, d.category, d.description⟩],
          db.userPermissions, db.nextId + 1⟩,
         ⟨db.nextId, d.name, d.category, d.description⟩) := by
      simp only [findOrCreatePermission, h]
    rw [h1]
    exact ⟨rfl, rfl, rfl, ⟨_, rfl⟩, by simp, rfl⟩
  · have h1 : findOrCreatePermission db d = (db, q) := by
      simp only [findOrCreatePermission, h]
    rw [h1]
    refine ⟨rfl, rfl, rfl, ⟨[], by simp⟩, List.mem_of_find?_eq_some h, ?_⟩
    have := List.find?_some h
    simpa using this

theorem grantLoop_spec (uid : Nat) : ∀ (defs : List PermDef) (db : Db),
    (grantLoop uid db defs).users = db.users ∧
    (grantLoop uid db defs).sessions = db.sessions ∧
    (∃ extra, (grantLoop uid db defs).permissions = db.permissions ++ extra) ∧
    ∃ rows, (grantLoop uid db defs).userPermissions = db.userPermissions ++ rows ∧
      List.Forall₂ (fun (row : UserPermission) (d : PermDef) =>
        row.userId = uid ∧ row.grantedBy = "system" ∧
        ∃ p, p ∈ (grantLoop uid db defs).permissions ∧ p.id = row.permissionId ∧
          p.name = d.name) rows defs := by
  intro defs
  induction defs with
  | nil =>
    intro db
    exact ⟨rfl, rfl, ⟨[], by simp [grantLoop]⟩, [], by simp [grantLoop], List.Forall₂.nil⟩
  | cons d rest ih =>
    intro db
    rcases hfc : findOrCreatePermission db d with ⟨db1, p⟩
    have hspec := findOrCreatePermission_spec db d
    rw [hfc] at hspec
    obtain ⟨hu1, hs1, hup1, ⟨extra1, hp1⟩, hperm1, hname1⟩ := hspec
    have hstep : grantLoop uid db (d :: rest) =
        grantLoop uid { db1 with userPermissions := db1.userPermissions ++
          [{ userId := uid, permissionId := p.id, grantedBy := "system" }] } rest := by
      simp only [grantLoop, hfc]
    obtain ⟨ihu, ihs, ⟨extra2, ihp⟩, rows2, ihup, ihfa⟩ :=
      ih { db1 with userPermissions := db1.userPermissions ++
        [{ userId := uid, permissionId := p.id, grantedBy := "system" }] }
    dsimp only at hu1 hs1 hup1 hp1 hperm1 hname1 ihu ihs ihp ihup
    rw [hstep]
    refine ⟨?_, ?_, ⟨extra1 ++ extra2, ?_⟩, ?_⟩
    · rw [ihu]
      exact hu1
    · rw [ihs]
      exact hs1
    · rw [ihp, hp1, List.append_assoc]
    · refine ⟨{ userId := uid, permissionId := p.id, grantedBy := "system" } :: rows2, ?_, ?_⟩
      · rw [ihup, hup1, List.append_assoc]
        rfl
      · refine List.Forall₂.cons ⟨rfl, rfl, p, ?_, rfl, hname1⟩ ihfa
        rw [ihp]
        exact List.mem_append_left _ hperm1

theorem grantDefaultPermissions_sessions (db : Db) (uid : Nat) :
    (grantDefaultPermissions db uid).sessions = db.sessions :=
  (grantLoop_spec uid defaultPermissions db).2.1

theorem loadOrCreateUser_sessions (db : Db) (auth : StytchResult) :
    ((loadOrCreateUser db auth).1).sessions = db.sessions := by
  rcases h : db.users.find? (fun u => u.stytchUserId == auth.stytchUserId) with _ | u
  · simp only [loadOrCreateUser, h]
    rw [grantDefaultPermissions_sessions]
  · simp only [loadOrCreateUser, h]

theorem loadOrCreateUser_found (db : Db) (auth : StytchResult) (u : User)
    (h : db.users.find? (fun t => t.stytchUserId == auth.stytchUserId) = some u) :
    loadOrCreateUser db auth = (db, u) := by
  simp only [loadOrCreateUser, h]

theorem touchOrCreateSession_found (db : Db) (auth : StytchResult) (uid : Nat)
    (tok : String) (now : Nat) (s : Session)
    (h : db.sessions.find? (fun t => t.stytchSessionId == auth.stytchSessionId) = some s) :
    ((touchOrCreateSession db auth uid tok now).1).sessions =
      db.sessions.map (fun t =>
        if t.id == s.id then { t with lastUsedAt := now } else t) := by
  simp only [touchOrCreateSession, h]

theorem touchOrCreateSession_none (db : Db) (auth : StytchResult) (uid : Nat)
    (tok : String) (now : Nat)
    (h : db.sessions.find? (fun t => t.stytchSessionId == auth.stytchSessionId) = none) :
    ((touchOrCreateSession db auth uid tok now).1).sessions =
      db.sessions ++ [⟨db.nextId, uid, auth.stytchSessionId, tok,
        auth.expiresAt.getD (now + 3600000), now⟩] := by
  simp only [touchOrCreateSession, h]

theorem touchOrCreateSession_frame (db : Db) (auth : StytchResult) (uid : Nat)
    (tok : String) (now : Nat) :
    ((touchOrCreateSession db auth uid tok now).1).users = db.users ∧
    ((touchOrCreateSession db auth uid tok now).1).userPermissions = db.userPermissions ∧
    ((touchOrCreateSession db auth uid tok now).1).permissions = db.permissions := by
  rcases h : db.sessions.find? (fun t => t.stytchSessionId == auth.stytchSessionId) with _ | s <;>
    simp [touchOrCreateSession, h]

theorem validateTokenDb_fst (db : Db) (auth : StytchResult) (tok : String) (now : Nat) :
    (validateTokenDb db auth tok now).1 =
      (touchOrCreateSession (loadOrCreateUser db auth).1 auth
        ((loadOrCreateUser db auth).2).id tok now).1 := by
  rcases h : loadOrCreateUser db auth with ⟨db1, user⟩
  simp only [validateTokenDb, h]

theorem upd_comp_sid (keyId : Nat) (now : Nat) (sid : String) :
    ((fun s : Session => s.stytchSessionId == sid) ∘ (fun t : Session =>
      if t.id == keyId then { t with lastUsedAt := now } else t)) =
    (fun t : Session => t.stytchSessionId == sid) := by
  funext t
  simp only [Function.comp]
  split <;> rfl

theorem sessionCount_zero_find_none (db : Db) (sid : String)
    (h : sessionCount db sid = 0) : findSessionBySid db sid = none := by
  rw [findSessionBySid, List.find?_eq_none]
  intro s hs hp
  have hmem : s ∈ db.sessions.filter (fun t => t.stytchSessionId == sid) :=
    List.mem_filter.mpr ⟨hs, hp⟩
  rw [sessionCount, List.length_eq_zero] at h
  rw [h] at hmem
  simp at hmem

theorem sessionCount_one_find_some (db : Db) (sid : String)
    (h : sessionCount db sid = 1) : ∃ s, findSessionBySid db sid = some s := by
  rcases hf : findSessionBySid db sid with _ | s
  · exfalso
    rw [findSessionBySid, List.find?_eq_none] at hf
    have : db.sessions.filter (fun t => t.stytchSessionId == sid) = [] :=
      List.filter_eq_nil_iff.mpr hf
    rw [sessionCount, this] at h
    simp at h
  · exact ⟨s, rfl⟩

theorem validate_call_create (db : Db) (auth : StytchResult) (tok : String) (now : Nat)
    (h : findSessionBySid db auth.stytchSessionId = none) :
    ∃ snew, (validateTokenDb db auth tok now).1.sessions = db.sessions ++ [snew] ∧
      snew.stytchSessionId = auth.stytchSessionId ∧ snew.lastUsedAt = now := by
  refine ⟨⟨((loadOrCreateUser db auth).1).nextId, ((loadOrCreateUser db auth).2).id,
    auth.stytchSessionId, tok, auth.expiresAt.getD (now + 3600000), now⟩, ?_, rfl, rfl⟩
  rw [validateTokenDb_fst]
  rw [touchOrCreateSession_none _ _ _ _ _ (by rw [loadOrCreateUser_sessions]; exact h)]
  rw [loadOrCreateUser_sessions]

theorem validate_call_touch (db : Db) (auth : StytchResult) (tok : String) (now : Nat)
    (s : Session) (h : findSessionBySid db auth.stytchSessionId = some s) :
    (validateTokenDb db auth tok now).1.sessions =
      db.sessions.map (fun t => if t.id == s.id then { t with lastUsedAt := now } else t) ∧
    findSessionBySid (validateTokenDb db auth tok now).1 auth.stytchSessionId =
      some { s with lastUsedAt := now } ∧
    sessionCount (validateTokenDb db auth tok now).1 auth.stytchSessionId =
      sessionCount db auth.stytchSessionId := by
  have hfind1 : ((loadOrCreateUser db auth).1).sessions.find?
      (fun t => t.stytchSessionId == auth.stytchSessionId) = some s := by
    rw [loadOrCreateUser_sessions]
    exact h
  have hmain : (validateTokenDb db auth tok now).1.sessions =
      db.sessions.map (fun t => if t.id == s.id then { t with lastUsedAt := now } else t) := by
    rw [validateTokenDb_fst,
      touchOrCreateSession_found _ _ _ _ _ _ hfind1, loadOrCreateUser_sessions]
  refine ⟨hmain, ?_, ?_⟩
  · rw [findSessionBySid, hmain, List.find?_map, upd_comp_sid]
    rw [show db.sessions.find? (fun t => t.stytchSessionId == auth.stytchSessionId) =
      some s from h]
    simp
  · rw [sessionCount, hmain, List.filter_map, upd_comp_sid, List.length_map, sessionCount]

theorem validate_call_from_inv (db : Db) (auth : StytchResult) (tok : String) (now : Nat)
    (h : sessionCount db auth.stytchSessionId ≤ 1) :
    sessionCount (validateTokenDb db auth tok now).1 auth.stytchSessionId = 1 ∧
    ∃ s1, findSessionBySid (validateTokenDb db auth tok now).1 auth.stytchSessionId = some s1 ∧
      s1.lastUsedAt = now := by
  rcases Nat.le_one_iff_eq_zero_or_eq_one.mp h with h0 | h1
  · have hnone := sessionCount_zero_find_none db _ h0
    obtain ⟨snew, hsess, hsid, hlast⟩ := validate_call_create db auth tok now hnone
    have hfil : db.sessions.filter (fun t => t.stytchSessionId == auth.stytchSessionId) = [] :=
      List.length_eq_zero.mp h0
    constructor
    · rw [sessionCount, hsess, List.filter_append, hfil]
      simp [hsid]
    · refine ⟨snew, ?_, hlast⟩
      rw [findSessionBySid, hsess, List.find?_append]
      rw [show db.sessions.find? (fun t => t.stytchSessionId == auth.stytchSessionId) =
        none from hnone]
      simp [List.find?, hsid]
  · obtain ⟨s, hs⟩ := sessionCount_one_find_some db _ h1
    obtain ⟨hmain, hfind, hcnt⟩ := validate_call_touch db auth tok now s hs
    refine ⟨by rw [hcnt]; exact h1, { s with lastUsedAt := now }, hfind, rfl⟩

/-- C8: session validation preserves the at-most-one-Session-per-provider-
session-id invariant: after a first validation exactly one Session row
holds the provider session id, and a second validation of the same id
touches that row in place — same row id, no new row (the session table
keeps its length), one row for the id — with the second last-used
timestamp `now2` at least the first `now1`. -/
theorem C8_session_touch_idempotent :
    ∀ (db : Db) (auth : StytchResult) (tok1 tok2 : String) (now1 now2 : Nat),
    sessionCount db auth.stytchSessionId ≤ 1 →
    now1 ≤ now2 →
    sessionCount (validateTokenDb db auth tok1 now1).1 auth.stytchSessionId = 1 ∧
    sessionCount (validateTokenDb (validateTokenDb db auth tok1 now1).1 auth tok2 now2).1
      auth.stytchSessionId = 1 ∧
    ((validateTokenDb (validateTokenDb db auth tok1 now1).1 auth tok2 now2).1).sessions.length =
      ((validateTokenDb db auth tok1 now1).1).sessions.length ∧
    ∃ s1 s2,
      findSessionBySid (validateTokenDb db auth tok1 now1).1 auth.stytchSessionId = some s1 ∧
      findSessionBySid (validateTokenDb (validateTokenDb db auth tok1 now1).1 auth tok2 now2).1
        auth.stytchSessionId = some s2 ∧
      s2.id = s1.id ∧ s1.lastUsedAt ≤ s2.lastUsedAt := by
  intro db auth tok1 tok2 now1 now2 hcount hnow
  obtain ⟨hc1, s1, hf1, hl1⟩ := validate_call_from_inv db auth tok1 now1 hcount
  obtain ⟨hmain2, hfind2, hcnt2⟩ :=
    validate_call_touch (validateTokenDb db auth tok1 now1).1 auth tok2 now2 s1 hf1
  refine ⟨hc1, by rw [hcnt2]; exact hc1, by rw [hmain2, List.length_map],
    s1, { s1 with lastUsedAt := now2 }, hf1, hfind2, rfl, ?_⟩
  rw [hl1]
  exact hnow

/-- C8 witness: the theorem applied at the empty database with a concrete
Stytch result and increasing timestamps. -/
theorem C8_session_touch_idempotent_witness :
    sessionCount (validateTokenDb ⟨[], [], [], [], 0⟩
      ⟨"su1", "ss1", none, ["a"], none⟩ "t1" 5).1 "ss1" = 1 ∧
    sessionCount (validateTokenDb (validateTokenDb ⟨[], [], [], [], 0⟩
      ⟨"su1", "ss1", none, ["a"], none⟩ "t1" 5).1
      ⟨"su1", "ss1", none, ["a"], none⟩ "t2" 6).1 "ss1" = 1 ∧
    ((validateTokenDb (validateTokenDb ⟨[], [], [], [], 0⟩
      ⟨"su1", "ss1", none, ["a"], none⟩ "t1" 5).1
      ⟨"su1", "ss1", none, ["a"], none⟩ "t2" 6).1).sessions.length =
      ((validateTokenDb ⟨[], [], [], [], 0⟩
        ⟨"su1", "ss1", none, ["a"], none⟩ "t1" 5).1).sessions.length ∧
    ∃ s1 s2,
      findSessionBySid (validateTokenDb ⟨[], [], [], [], 0⟩
        ⟨"su1", "ss1", none, ["a"], none⟩ "t1" 5).1 "ss1" = some s1 ∧
      findSessionBySid (validateTokenDb (validateTokenDb ⟨[], [], [], [], 0⟩
        ⟨"su1", "ss1", none, ["a"], none⟩ "t1" 5).1
        ⟨"su1", "ss1", none, ["a"], none⟩ "t2" 6).1 "ss1" = some s2 ∧
      s2.id = s1.id ∧ s1.lastUsedAt ≤ s2.lastUsedAt :=
  C8_session_touch_idempotent ⟨[], [], [], [], 0⟩
    ⟨"su1", "ss1", none, ["a"], none⟩ "t1" "t2" 5 6 (by decide) (by decide)

theorem validateTokenDb_frame (db : Db) (auth : StytchResult) (tok : String) (now : Nat) :
    (validateTokenDb db auth tok now).1.users = ((loadOrCreateUser db auth).1).users ∧
    (validateTokenDb db auth tok now).1.userPermissions =
      ((loadOrCreateUser db auth).1).userPermissions ∧
    (validateTokenDb db auth tok now).1.permissions =
      ((loadOrCreateUser db auth).1).permissions := by
  rw [validateTokenDb_fst]
  exact touchOrCreateSession_frame _ _ _ _ _

theorem loadOrCreateUser_created (db : Db) (auth : StytchResult)
    (h : db.users.find? (fun u => u.stytchUserId == auth.stytchUserId) = none) :
    ∃ u rows, (loadOrCreateUser db auth).2 = u ∧
      u.stytchUserId = auth.stytchUserId ∧
      ((loadOrCreateUser db auth).1).users = db.users ++ [u] ∧
      ((loadOrCreateUser db auth).1).userPermissions = db.userPermissions ++ rows ∧
      List.Forall₂ (fun (row : UserPermission) (d : PermDef) =>
        row.userId = u.id ∧ row.grantedBy = "system" ∧
        ∃ p, p ∈ ((loadOrCreateUser db auth).1).permissions ∧
          p.id = row.permissionId ∧ p.name = d.name) rows defaultPermissions := by
  have hload : loadOrCreateUser db auth =
      (grantDefaultPermissions
        ⟨db.users ++ [⟨db.nextId, auth.stytchUserId, auth.profileEmails.headD "",
          match auth.profileFirstName with
          | some s => if s == "" then none else some s
          | none => none⟩], db.sessions, db.permissions, db.userPermissions, db.nextId + 1⟩
        db.nextId,
       ⟨db.nextId, auth.stytchUserId, auth.profileEmails.headD "",
        match auth.profileFirstName with
        | some s => if s == "" then none else some s
        | none => none⟩) := by
    simp only [loadOrCreateUser, h]
  obtain ⟨hgu, hgs, hgp, rows, hgup, hgfa⟩ :=
    grantLoop_spec db.nextId defaultPermissions
      ⟨db.users ++ [⟨db.nextId, auth.stytchUserId, auth.profileEmails.headD "",
        match auth.profileFirstName with
        | some s => if s == "" then none else some s
        | none => none⟩], db.sessions, db.permissions, db.userPermissions, db.nextId + 1⟩
  refine ⟨⟨db.nextId, auth.stytchUserId, auth.profileEmails.headD "",
    match auth.profileFirstName with
    | some s => if s == "" then none else some s
    | none => none⟩, rows, ?_, rfl, ?_, ?_, ?_⟩
  · rw [hload]
  · rw [hload]
    exact hgu
  · rw [hload]
    exact hgup
  · rw [hload]
    exact hgfa

/-- C9: a first validation for an identity with no prior local record
creates exactly one new Identity row bearing the provider user id and
attaches exactly the fixed default permission grants — one row per entry
of the five-name default list, each with grantor `"system"` and each
referencing a stored permission with the expected name — and a second
validation for the same identity creates no Identity and adds no grants. -/
theorem C9_first_login_provisioning :
    ∀ (db : Db) (auth : StytchResult) (tok1 tok2 : String) (now1 now2 : Nat),
    db.users.find? (fun u => u.stytchUserId == auth.stytchUserId) = none →
    ∃ u rows,
      (validateTokenDb db auth tok1 now1).1.users = db.users ++ [u] ∧
      u.stytchUserId = auth.stytchUserId ∧
      (validateTokenDb db auth tok1 now1).1.userPermissions = db.userPermissions ++ rows ∧
      List.Forall₂ (fun (row : UserPermission) (d : PermDef) =>
        row.userId = u.id ∧ row.grantedBy = "system" ∧
        ∃ p, p ∈ (validateTokenDb db auth tok1 now1).1.permissions ∧
          p.id = row.permissionId ∧ p.name = d.name) rows defaultPermissions ∧
      defaultPermissions.map (fun d => d.name) =
        ["tools.create-random-user", "tools.create-user", "resources.users",
         "resources.user-details", "prompts.generate-fake-user"] ∧
      (validateTokenDb (validateTokenDb db auth tok1 now1).1 auth tok2 now2).1.users =
        (validateTokenDb db auth tok1 now1).1.users ∧
      (validateTokenDb (validateTokenDb db auth tok1 now1).1 auth tok2 now2).1.userPermissions =
        (validateTokenDb db auth tok1 now1).1.userPermissions := by
  intro db auth tok1 tok2 now1 now2 h
  obtain ⟨u, rows, hu2, husid, huser, hup, hfa⟩ := loadOrCreateUser_created db auth h
  obtain ⟨hfu, hfup, hfp⟩ := validateTokenDb_frame db auth tok1 now1
  refine ⟨u, rows, ?_, husid, ?_, ?_, by decide, ?_⟩
  · rw [hfu, huser]
  · rw [hfup, hup]
  · rw [hfp]
    exact hfa
  · -- second call: the user is found, so no creation and no grants
    have hfound : (validateTokenDb db auth tok1 now1).1.users.find?
        (fun t => t.stytchUserId == auth.stytchUserId) = some u := by
      rw [hfu, huser, List.find?_append, h]
      simp [List.find?, husid]
    have hload2 := loadOrCreateUser_found (validateTokenDb db auth tok1 now1).1 auth u hfound
    obtain ⟨hfu2, hfup2, hfp2⟩ :=
      validateTokenDb_frame (validateTokenDb db auth tok1 now1).1 auth tok2 now2
    rw [hload2] at hfu2 hfup2
    exact ⟨hfu2, hfup2⟩

/-- C9 witness: the theorem applied at the empty database with a concrete
Stytch result. -/
theorem C9_first_login_provisioning_witness :
    ∃ u rows,
      (validateTokenDb ⟨[], [], [], [], 0⟩
        ⟨"su1", "ss1", none, ["a"], none⟩ "t1" 5).1.users = [] ++ [u] ∧
      u.stytchUserId = "su1" ∧
      (validateTokenDb ⟨[], [], [], [], 0⟩
        ⟨"su1", "ss1", none, ["a"], none⟩ "t1" 5).1.userPermissions = [] ++ rows ∧
      List.Forall₂ (fun (row : UserPermission) (d : PermDef) =>
        row.userId = u.id ∧ row.grantedBy = "system" ∧
        ∃ p, p ∈ (validateTokenDb ⟨[], [], [], [], 0⟩
            ⟨"su1", "ss1", none, ["a"], none⟩ "t1" 5).1.permissions ∧
          p.id = row.permissionId ∧ p.name = d.name) rows defaultPermissions ∧
      defaultPermissions.map (fun d => d.name) =
        ["tools.create-random-user", "tools.create-user", "resources.users",
         "resources.user-details", "prompts.generate-fake-user"] ∧
      (validateTokenDb (validateTokenDb ⟨[], [], [], [], 0⟩
          ⟨"su1", "ss1", none, ["a"], none⟩ "t1" 5).1
        ⟨"su1", "ss1", none, ["a"], none⟩ "t2" 6).1.users =
        (validateTokenDb ⟨[], [], [], [], 0⟩
          ⟨"su1", "ss1", none, ["a"], none⟩ "t1" 5).1.users ∧
      (validateTokenDb (validateTokenDb ⟨[], [], [], [], 0⟩
          ⟨"su1", "ss1", none, ["a"], none⟩ "t1" 5).1
        ⟨"su1", "ss1", none, ["a"], none⟩ "t2" 6).1.userPermissions =
        (validateTokenDb ⟨[], [], [], [], 0⟩
          ⟨"su1", "ss1", none, ["a"], none⟩ "t1" 5).1.userPermissions :=
  C9_first_login_provisioning ⟨[], [], [], [], 0⟩
    ⟨"su1", "ss1", none, ["a"], none⟩ "t1" "t2" 5 6 rfl


